import Mathlib

/-!
# Verification of the Velodyne HDL-64E raw-data decoding pipeline

Shallow embedding of `src/velodyne_pointcloud/src/lib/rawdata.cc`:
the packet decoder (`RawDataScans::packet2scans`), the Cartesian
projection (`RawDataXYZ::scan2xyz`), the calibration-file loader
(`RawData::setup`) and the initialization gate (`RawData::processScan`).

Float arithmetic of the source is modelled over exact numbers:
values that only ever undergo rational arithmetic (parsed calibration
coefficients) are `ℚ`, values that meet transcendental functions
(angles, ranges) are `ℝ`.
-/

open Real

/-- Modelled from the spec: `BLOCKS_PER_PACKET` lives in the header
`velodyne_pointcloud/rawdata.h`, which is not part of `src/`; the spec
fixes 12 data blocks per packet. -/
def BLOCKS_PER_PACKET : Nat := 12

/-- Modelled from the spec: 32 laser slots (returns) per data block. -/
def SCANS_PER_BLOCK : Nat := 32

/-- Modelled from the spec: bytes per return in a block's data area
(2-byte range + 1-byte intensity). -/
def RAW_SCAN_SIZE : Nat := 3

/-- Modelled from the spec: samples per packet, `12 × 32 = 384`. -/
def SCANS_PER_PACKET : Nat := SCANS_PER_BLOCK * BLOCKS_PER_PACKET

/-- Modelled from the spec: fixed-point rotation resolution, 0.01 degrees
per raw unit. -/
noncomputable def ROTATION_RESOLUTION : ℝ := 0.01

/-- Modelled from the spec: range resolution, 2 mm (0.002 m) per raw unit. -/
noncomputable def DISTANCE_RESOLUTION : ℝ := 0.002

/-- Modelled from the spec: the header tag marking a lower-bank block.
Its exact numeric value is immaterial to every claim; only the equality
test against a block's header field matters. -/
def LOWER_BANK : Nat := 0xddff

/-- Modelled from the spec: total byte length of one raw packet
(12 blocks of 100 bytes, then the 16-bit revolution counter and status
bytes). -/
def PACKET_SIZE : Nat := 1206

/-- Per-laser correction record (`correction_angles` of the header, fields
as written by `RawData::setup`, lines 129-136).  `rotational` and
`vertical` hold radians (degree inputs are converted at store time), the
remaining coefficients are stored verbatim. -/
structure correction_angles where
  rotational : ℝ
  vertical : ℝ
  offset1 : ℚ
  offset2 : ℚ
  offset3 : ℚ
  horzCorr : ℚ
  vertCorr : ℚ
  enabled : Int

/-- Model of `angles::from_degrees` of the ROS `angles` package:
`degrees * M_PI / 180.0`. -/
noncomputable def from_degrees (d : ℝ) : ℝ := d * π / 180

/-- Model of `angles::normalize_angle_positive`:
`fmod(fmod(angle, 2π) + 2π, 2π)`, which over the reals is
`2π · fract(angle / 2π)`, landing in `[0, 2π)`. -/
noncomputable def normalize_angle_positive (θ : ℝ) : ℝ :=
  2 * π * Int.fract (θ / (2 * π))

/-- Model of `angles::normalize_angle`: normalize to `[0, 2π)`, subtract `2π`
when the result exceeds `π`; lands in `(-π, π]`. -/
noncomputable def normalize_angle (θ : ℝ) : ℝ :=
  let a := normalize_angle_positive θ
  if π < a then a - 2 * π else a

/-- One data block of a raw packet (`raw_block_t`): a bank-selector
header, the fixed-point rotation field, and the 96-byte data area
(modelled, like the C array it overlays, as an unchecked total map from
byte offsets to byte values). -/
structure raw_block_t where
  header : Nat
  rotation : Nat
  data : Nat → Nat

/-- One raw packet (`raw_packet_t`): 12 blocks plus the 16-bit revolution
counter. -/
structure raw_packet_t where
  blocks : Nat → raw_block_t
  revolution : Nat

/-- One decoded sample (`laserscan_t` of the header; field set per the
spec's DecodedSample). -/
structure laserscan_t where
  laser_number : Nat
  heading : ℝ
  pitch : ℝ
  range : ℝ
  intensity : Nat
  revolution : Nat

/-- The little-endian 2-byte range read of `packet2scans` (rawdata.cc
lines 203-206): `union two_bytes` with `bytes[0] = data[k]`,
`bytes[1] = data[k+1]`, read back as `uint` on the little-endian target,
with `k = j * RAW_SCAN_SIZE`. -/
def rawRangeUnits (raw : raw_packet_t) (i j : Nat) : Nat :=
  (raw.blocks i).data (j * RAW_SCAN_SIZE)
    + 256 * (raw.blocks i).data (j * RAW_SCAN_SIZE + 1)

/-- The `corrections` pointer of the block loop (rawdata.cc lines 180-186):
`lower_` when the block header carries the lower-bank tag, else `upper_`. -/
noncomputable def blockCorrections (raw : raw_packet_t)
    (lower upper : Int → correction_angles) (i : Nat) : Int → correction_angles :=
  if (raw.blocks i).header = LOWER_BANK then lower else upper

/-- The body of the inner loop of `RawDataScans::packet2scans`
(rawdata.cc lines 178-218) for block `i`, laser slot `j`: bank selection
from the block header, heading from the block rotation and the slot's
rotational correction, pitch from calibration, range from the two
little-endian data bytes with the quadratic correction applied, intensity
from the third byte, revolution copied from the packet.  The calibration
banks are passed as unchecked total maps (`Int → correction_angles`),
mirroring the raw C arrays `lower_` / `upper_`. -/
noncomputable def decodeSample (raw : raw_packet_t)
    (lower upper : Int → correction_angles) (i j : Nat) : laserscan_t :=
  let bank_origin : Nat := if (raw.blocks i).header = LOWER_BANK then 0 else 32
  let corrections : Int → correction_angles := blockCorrections raw lower upper i
  let rotation : ℝ := from_degrees ((raw.blocks i).rotation * ROTATION_RESOLUTION)
  let c := corrections (j : Int)
  let tmp : Nat := rawRangeUnits raw i j
  let r0 : ℝ := tmp * DISTANCE_RESOLUTION
  { laser_number := j + bank_origin
    heading := normalize_angle (-(rotation - c.rotational))
    pitch := c.vertical
    range := (c.offset1 : ℝ) * r0 * r0 + (c.offset2 : ℝ) * r0 + (c.offset3 : ℝ)
    intensity := (raw.blocks i).data (j * RAW_SCAN_SIZE + 2)
    revolution := raw.revolution }

/-- Model of `RawDataScans::packet2scans` (rawdata.cc lines 173-222): the two
nested loops write one sample per (block, slot) pair, incrementing the
output index once per iteration — i.e. the output is the block-major,
slot-minor concatenation of `decodeSample`. -/
noncomputable def packet2scans (raw : raw_packet_t)
    (lower upper : Int → correction_angles) : List laserscan_t :=
  (List.range BLOCKS_PER_PACKET).flatMap
    (fun i => (List.range SCANS_PER_BLOCK).map (decodeSample raw lower upper i))

theorem flatMap_range_map_length {α : Type} (f : Nat → Nat → α) (m n : Nat) :
    ((List.range m).flatMap (fun i => (List.range n).map (f i))).length = m * n := by
  simp [List.length_flatMap, Function.comp_def, List.sum_replicate, smul_eq_mul,
    Nat.mul_comm]

theorem packet2scans_length (raw : raw_packet_t)
    (lower upper : Int → correction_angles) :
    (packet2scans raw lower upper).length = SCANS_PER_PACKET := by
  simpa [packet2scans, SCANS_PER_PACKET, Nat.mul_comm] using
    flatMap_range_map_length (decodeSample raw lower upper)
      BLOCKS_PER_PACKET SCANS_PER_BLOCK

theorem flatMap_range_map_get {α : Type} (f : Nat → Nat → α) (n : Nat) :
    ∀ (m i j : Nat), i < m → j < n →
      ((List.range m).flatMap (fun i => (List.range n).map (f i)))[i * n + j]? =
        some (f i j) := by
  intro m
  induction m with
  | zero => intro i j hi _; exact absurd hi (Nat.not_lt_zero i)
  | succ m ih =>
      intro i j hi hj
      rw [List.range_succ, List.flatMap_append]
      have hlen : ((List.range m).flatMap
          (fun i => (List.range n).map (f i))).length = m * n :=
        flatMap_range_map_length f m n
      rcases Nat.lt_succ_iff_lt_or_eq.mp hi with h | h
      · have hidx : i * n + j < m * n := by
          calc i * n + j < i * n + n := by omega
            _ = (i + 1) * n := by ring
            _ ≤ m * n := Nat.mul_le_mul_right n h
        rw [List.getElem?_append_left (by rw [hlen]; exact hidx)]
        exact ih i j h hj
      · rw [List.getElem?_append_right (by rw [hlen, h]; omega)]
        have hsub : i * n + j - ((List.range m).flatMap
            (fun i => (List.range n).map (f i))).length = j := by
          rw [hlen, h]; omega
        rw [hsub, h]
        simp [List.getElem?_map, List.getElem?_range hj]

theorem normalize_angle_positive_nonneg (θ : ℝ) :
    0 ≤ normalize_angle_positive θ := by
  unfold normalize_angle_positive
  have h := Int.fract_nonneg (θ / (2 * π))
  have h2 : (0:ℝ) < 2 * π := by positivity
  nlinarith

theorem normalize_angle_positive_lt (θ : ℝ) :
    normalize_angle_positive θ < 2 * π := by
  unfold normalize_angle_positive
  have h := Int.fract_lt_one (θ / (2 * π))
  have h2 : (0:ℝ) < 2 * π := by positivity
  nlinarith

theorem normalize_angle_mem (θ : ℝ) :
    normalize_angle θ ∈ Set.Ioc (-π) π := by
  have hπ : (0:ℝ) < π := Real.pi_pos
  have h0 := normalize_angle_positive_nonneg θ
  have h1 := normalize_angle_positive_lt θ
  simp only [normalize_angle, Set.mem_Ioc]
  by_cases h : π < normalize_angle_positive θ
  · rw [if_pos h]
    constructor <;> linarith
  · rw [if_neg h]
    push_neg at h
    constructor <;> linarith

theorem normalize_angle_pi : normalize_angle π = π := by
  have hπ : (0:ℝ) < π := Real.pi_pos
  have h1 : π / (2 * π) = 1 / 2 := by
    rw [div_eq_iff (by positivity)]; ring
  have h2 : normalize_angle_positive π = π := by
    rw [normalize_angle_positive, h1,
      Int.fract_eq_self.2 (by norm_num)]
    ring
  simp only [normalize_angle, h2, if_neg (lt_irrefl π)]

theorem normalize_angle_neg_pi : normalize_angle (-π) = π := by
  have hπ : (0:ℝ) < π := Real.pi_pos
  have h1 : -π / (2 * π) = -(1 / 2) := by
    rw [div_eq_iff (by positivity)]; ring
  have hf : Int.fract (-(1 / 2) : ℝ) = 1 / 2 := by
    rw [Int.fract_neg (by rw [Int.fract_eq_self.2 (by norm_num)]; norm_num),
      Int.fract_eq_self.2 (by norm_num)]
    norm_num
  have h2 : normalize_angle_positive (-π) = π := by
    rw [normalize_angle_positive, h1, hf]
    ring
  simp only [normalize_angle, h2, if_neg (lt_irrefl π)]

/-- All-zero correction record, as left by the constructor's `memset`
(rawdata.cc lines 44-48). -/
noncomputable def zeroCorrection : correction_angles :=
  { rotational := 0, vertical := 0, offset1 := 0, offset2 := 0, offset3 := 0
    horzCorr := 0, vertCorr := 0, enabled := 0 }

/-- All-zero calibration bank. -/
noncomputable def zeroTable : Int → correction_angles := fun _ => zeroCorrection

/-- Identity-quadratic correction record: `distance_coeff = (0, 1, 0)`. -/
noncomputable def idCorrection : correction_angles :=
  { zeroCorrection with offset2 := 1 }

/-- Calibration bank holding the identity quadratic everywhere. -/
noncomputable def idTable : Int → correction_angles := fun _ => idCorrection

/-- A concrete all-zero block, for instantiating universally quantified
theorems. -/
def testBlock : raw_block_t := { header := 0, rotation := 0, data := fun _ => 0 }

/-- A concrete all-zero packet. -/
def testPacket : raw_packet_t := { blocks := fun _ => testBlock, revolution := 0 }

/-- C1: for every packet and calibration table, `packet2scans` writes
exactly `BLOCKS_PER_PACKET × SCANS_PER_BLOCK = SCANS_PER_PACKET` samples,
in block-major, slot-minor order: the sample at output position
`i * SCANS_PER_BLOCK + j` is the one decoded from block `i`, laser slot
`j`, and no slot is skipped. -/
theorem packet2scans_count_order (raw : raw_packet_t)
    (lower upper : Int → correction_angles) :
    (packet2scans raw lower upper).length = SCANS_PER_PACKET
    ∧ SCANS_PER_PACKET = BLOCKS_PER_PACKET * SCANS_PER_BLOCK
    ∧ ∀ i j : Nat, i < BLOCKS_PER_PACKET → j < SCANS_PER_BLOCK →
        (packet2scans raw lower upper)[i * SCANS_PER_BLOCK + j]? =
          some (decodeSample raw lower upper i j) :=
  ⟨packet2scans_length raw lower upper, by decide,
    fun i j hi hj =>
      flatMap_range_map_get (decodeSample raw lower upper)
        SCANS_PER_BLOCK BLOCKS_PER_PACKET i j hi hj⟩

theorem packet2scans_count_order_w :
    1 < BLOCKS_PER_PACKET ∧ 2 < SCANS_PER_BLOCK ∧
    (packet2scans testPacket zeroTable zeroTable)[1 * SCANS_PER_BLOCK + 2]? =
      some (decodeSample testPacket zeroTable zeroTable 1 2) :=
  ⟨by decide, by decide,
    (packet2scans_count_order testPacket zeroTable zeroTable).2.2 1 2
      (by decide) (by decide)⟩

/-- C2: the decoded heading is
`normalize_angle (-(block_rotation - correction.rotational))` with the
block rotation converted from its fixed-point field to radians; the
normalized value always lies in `(-π, π]`, and inputs landing exactly on
the `±π` boundary normalize to `+π`, never `-π`. -/
theorem decode_heading_spec (raw : raw_packet_t)
    (lower upper : Int → correction_angles) (i j : Nat) :
    (decodeSample raw lower upper i j).heading
      = normalize_angle
          (-(from_degrees ((raw.blocks i).rotation * ROTATION_RESOLUTION)
             - (blockCorrections raw lower upper i (j : Int)).rotational))
    ∧ (decodeSample raw lower upper i j).heading ∈ Set.Ioc (-π) π
    ∧ (∀ θ : ℝ, normalize_angle θ ∈ Set.Ioc (-π) π)
    ∧ normalize_angle π = π ∧ normalize_angle (-π) = π :=
  ⟨rfl, normalize_angle_mem _, normalize_angle_mem,
    normalize_angle_pi, normalize_angle_neg_pi⟩

/-- C3: the decoded range is the little-endian 2-byte raw value converted
at `DISTANCE_RESOLUTION` (2 mm per unit) with the laser's quadratic
correction `c0·r² + c1·r + c2 = offset1·r² + offset2·r + offset3`
applied; with `distance_coeff = (0, 1, 0)` the decoded range equals
`raw_units * DISTANCE_RESOLUTION` exactly. -/
theorem decode_range_spec (raw : raw_packet_t)
    (lower upper : Int → correction_angles) (i j : Nat) :
    ((decodeSample raw lower upper i j).range
      = ((blockCorrections raw lower upper i (j : Int)).offset1 : ℝ)
          * (rawRangeUnits raw i j * DISTANCE_RESOLUTION)
          * (rawRangeUnits raw i j * DISTANCE_RESOLUTION)
        + ((blockCorrections raw lower upper i (j : Int)).offset2 : ℝ)
            * (rawRangeUnits raw i j * DISTANCE_RESOLUTION)
        + ((blockCorrections raw lower upper i (j : Int)).offset3 : ℝ))
    ∧ ((blockCorrections raw lower upper i (j : Int)).offset1 = 0 →
       (blockCorrections raw lower upper i (j : Int)).offset2 = 1 →
       (blockCorrections raw lower upper i (j : Int)).offset3 = 0 →
        (decodeSample raw lower upper i j).range
          = rawRangeUnits raw i j * DISTANCE_RESOLUTION) := by
  constructor
  · rfl
  · intro h1 h2 h3
    show ((blockCorrections raw lower upper i (j : Int)).offset1 : ℝ)
          * (rawRangeUnits raw i j * DISTANCE_RESOLUTION)
          * (rawRangeUnits raw i j * DISTANCE_RESOLUTION)
        + ((blockCorrections raw lower upper i (j : Int)).offset2 : ℝ)
            * (rawRangeUnits raw i j * DISTANCE_RESOLUTION)
        + ((blockCorrections raw lower upper i (j : Int)).offset3 : ℝ)
        = rawRangeUnits raw i j * DISTANCE_RESOLUTION
    rw [h1, h2, h3]
    push_cast
    ring

theorem decode_range_spec_w :
    (blockCorrections testPacket zeroTable idTable 0 (0 : Int)).offset1 = 0
    ∧ (blockCorrections testPacket zeroTable idTable 0 (0 : Int)).offset2 = 1
    ∧ (blockCorrections testPacket zeroTable idTable 0 (0 : Int)).offset3 = 0
    ∧ (decodeSample testPacket zeroTable idTable 0 0).range
        = rawRangeUnits testPacket 0 0 * DISTANCE_RESOLUTION :=
  ⟨by decide, by decide, by decide,
    (decode_range_spec testPacket zeroTable idTable 0 0).2
      (by decide) (by decide) (by decide)⟩

/-- One projected point (`laserscan_xyz_t` of the header; field set per
the spec's Point3D). -/
structure laserscan_xyz_t where
  x : ℝ
  y : ℝ
  z : ℝ
  laser_number : Nat
  heading : ℝ
  revolution : Nat
  intensity : Nat

/-- Model of `RawDataXYZ::scan2xyz` (rawdata.cc lines 253-264): spherical to
Cartesian, `cosf`/`sinf` modelled by real cosine/sine. -/
noncomputable def scan2xyz (scan : laserscan_t) : laserscan_xyz_t :=
  let xy_projection : ℝ := scan.range * Real.cos scan.pitch
  { laser_number := scan.laser_number
    heading := scan.heading
    revolution := scan.revolution
    x := xy_projection * Real.cos scan.heading
    y := xy_projection * Real.sin scan.heading
    z := scan.range * Real.sin scan.pitch
    intensity := scan.intensity }

/-- C5: `scan2xyz` computes `xy = range·cos(pitch)`, `x = xy·cos(heading)`,
`y = xy·sin(heading)`, `z = range·sin(pitch)` and copies `laser_number`,
`heading`, `revolution`, `intensity` through unchanged; for `pitch = 0`
the point has `z = 0` and `(x, y) = range·(cos heading, sin heading)`,
i.e. it lies at distance `range` from the origin at angle `heading`; for
`heading = 0` it has `y = 0` and `x = range·cos(pitch)`. -/
theorem scan2xyz_spec (s : laserscan_t) :
    (scan2xyz s).x = s.range * Real.cos s.pitch * Real.cos s.heading
    ∧ (scan2xyz s).y = s.range * Real.cos s.pitch * Real.sin s.heading
    ∧ (scan2xyz s).z = s.range * Real.sin s.pitch
    ∧ (scan2xyz s).laser_number = s.laser_number
    ∧ (scan2xyz s).heading = s.heading
    ∧ (scan2xyz s).revolution = s.revolution
    ∧ (scan2xyz s).intensity = s.intensity
    ∧ (s.pitch = 0 →
        (scan2xyz s).z = 0
        ∧ (scan2xyz s).x = s.range * Real.cos s.heading
        ∧ (scan2xyz s).y = s.range * Real.sin s.heading)
    ∧ (s.heading = 0 →
        (scan2xyz s).y = 0
        ∧ (scan2xyz s).x = s.range * Real.cos s.pitch) := by
  refine ⟨rfl, rfl, rfl, rfl, rfl, rfl, rfl, ?_, ?_⟩
  · intro hp
    refine ⟨?_, ?_, ?_⟩ <;>
      simp [scan2xyz, hp, Real.cos_zero, Real.sin_zero]
  · intro hh
    refine ⟨?_, ?_⟩ <;>
      simp [scan2xyz, hh, Real.cos_zero, Real.sin_zero]

/-- A concrete sample with zero pitch and zero heading, instantiating the
projection identities. -/
noncomputable def testScanFlat : laserscan_t :=
  { laser_number := 3, heading := 0, pitch := 0, range := 5
    intensity := 7, revolution := 11 }

theorem scan2xyz_spec_w :
    testScanFlat.pitch = 0 ∧ testScanFlat.heading = 0
    ∧ ((scan2xyz testScanFlat).z = 0
        ∧ (scan2xyz testScanFlat).x = testScanFlat.range * Real.cos testScanFlat.heading
        ∧ (scan2xyz testScanFlat).y = testScanFlat.range * Real.sin testScanFlat.heading)
    ∧ ((scan2xyz testScanFlat).y = 0
        ∧ (scan2xyz testScanFlat).x = testScanFlat.range * Real.cos testScanFlat.pitch) :=
  ⟨rfl, rfl, (scan2xyz_spec testScanFlat).2.2.2.2.2.2.2.1 rfl,
    (scan2xyz_spec testScanFlat).2.2.2.2.2.2.2.2 rfl⟩

/-- Agreement of two correction records on every field the decoder reads
— everything except `enabled`. -/
def sameExceptEnabled (a b : correction_angles) : Prop :=
  a.rotational = b.rotational ∧ a.vertical = b.vertical
  ∧ a.offset1 = b.offset1 ∧ a.offset2 = b.offset2 ∧ a.offset3 = b.offset3
  ∧ a.horzCorr = b.horzCorr ∧ a.vertCorr = b.vertCorr

theorem decodeSample_ignores_enabled (raw : raw_packet_t)
    (lo1 up1 lo2 up2 : Int → correction_angles)
    (hl : ∀ q : Int, sameExceptEnabled (lo1 q) (lo2 q))
    (hu : ∀ q : Int, sameExceptEnabled (up1 q) (up2 q)) (i j : Nat) :
    decodeSample raw lo1 up1 i j = decodeSample raw lo2 up2 i j := by
  unfold decodeSample blockCorrections
  by_cases h : (raw.blocks i).header = LOWER_BANK
  · obtain ⟨h1, h2, h3, h4, h5, _, _⟩ := hl (j : Int)
    simp [h, h1, h2, h3, h4, h5]
  · obtain ⟨h1, h2, h3, h4, h5, _, _⟩ := hu (j : Int)
    simp [h, h1, h2, h3, h4, h5]

/-- C9: the decoder never consults the per-laser `enabled` flag — decoding
the same packet against two calibration tables that differ only in their
`enabled` fields yields identical sample sequences. -/
theorem packet2scans_ignores_enabled (raw : raw_packet_t)
    (lo1 up1 lo2 up2 : Int → correction_angles)
    (hl : ∀ q : Int, sameExceptEnabled (lo1 q) (lo2 q))
    (hu : ∀ q : Int, sameExceptEnabled (up1 q) (up2 q)) :
    packet2scans raw lo1 up1 = packet2scans raw lo2 up2 := by
  unfold packet2scans
  refine List.flatMap_congr ?_
  intro i _
  refine List.map_congr_left ?_
  intro j _
  exact decodeSample_ignores_enabled raw lo1 up1 lo2 up2 hl hu i j

/-- Correction record equal to `zeroCorrection` except for `enabled`. -/
noncomputable def enabledCorrection : correction_angles :=
  { zeroCorrection with enabled := 1 }

/-- Bank holding `enabledCorrection` everywhere. -/
noncomputable def enabledTable : Int → correction_angles :=
  fun _ => enabledCorrection

theorem packet2scans_ignores_enabled_w :
    packet2scans testPacket zeroTable zeroTable
      = packet2scans testPacket enabledTable enabledTable :=
  packet2scans_ignores_enabled testPacket zeroTable zeroTable
    enabledTable enabledTable
    (fun _ => ⟨rfl, rfl, rfl, rfl, rfl, rfl, rfl⟩)
    (fun _ => ⟨rfl, rfl, rfl, rfl, rfl, rfl, rfl⟩)

/-- Leading-whitespace skipping shared by the `sscanf` conversions. -/
def skipSpaces : List Char → List Char
  | [] => []
  | c :: cs => if c.isWhitespace then skipSpaces cs else c :: cs

/-- Split a maximal run of leading decimal digits. -/
def takeDigits : List Char → List Char × List Char
  | [] => ([], [])
  | c :: cs =>
      if c.isDigit then
        let p := takeDigits cs
        (c :: p.1, p.2)
      else ([], c :: cs)

/-- Decimal value of a digit run. -/
def digitsToNat (ds : List Char) : Nat :=
  ds.foldl (fun a c => 10 * a + (c.toNat - 48)) 0

/-- Optional sign; `true` means negative. -/
def scanSign : List Char → Bool × List Char
  | '-' :: cs => (true, cs)
  | '+' :: cs => (false, cs)
  | cs => (false, cs)

/-- The `%d` conversion of `sscanf`: skip whitespace, optional sign, then
a nonempty maximal digit run; consumes exactly the matched prefix (so on
input like `0.4` it succeeds, consuming only `0`). -/
def scanInt (s : List Char) : Option (Int × List Char) :=
  let s1 := skipSpaces s
  let p := scanSign s1
  let d := takeDigits p.2
  if d.1.isEmpty then none
  else
    some ((if p.1 then -(digitsToNat d.1 : Int) else (digitsToNat d.1 : Int)), d.2)

/-- The `%f` conversion of `sscanf`, restricted to the plain decimal
forms that occur in calibration files (optional sign, integer digits,
optional decimal point and fraction digits; the exponent/hex/infinity
forms of `strtof` are never exercised by this data and are not modelled):
consumes the longest valid prefix and yields its exact rational value. -/
def scanFloat (s : List Char) : Option (ℚ × List Char) :=
  let s1 := skipSpaces s
  let p := scanSign s1
  let ip := takeDigits p.2
  match ip.2 with
  | '.' :: r2 =>
      let fp := takeDigits r2
      if ip.1.isEmpty && fp.1.isEmpty then none
      else
        let mag : ℚ :=
          (digitsToNat ip.1 : ℚ) + (digitsToNat fp.1 : ℚ) / ((10 : ℚ) ^ fp.1.length)
        some ((if p.1 then -mag else mag), fp.2)
  | _ =>
      if ip.1.isEmpty then none
      else
        some ((if p.1 then -(digitsToNat ip.1 : ℚ) else (digitsToNat ip.1 : ℚ)), ip.2)

/-- The parse variables of `RawData::setup` (rawdata.cc lines 91-99):
function locals initialized to zero on every call of `setup` but —
crucially — persistent from one line of the file to the next. -/
structure ScanVars where
  index : Int
  rotational : ℚ
  vertical : ℚ
  enabled : Int
  offset1 : ℚ
  offset2 : ℚ
  offset3 : ℚ
  horzCorr : ℚ
  vertCorr : ℚ

/-- The zero initialization of the parse variables. -/
def zeroVars : ScanVars :=
  { index := 0, rotational := 0, vertical := 0, enabled := 0
    offset1 := 0, offset2 := 0, offset3 := 0, horzCorr := 0, vertCorr := 0 }

/-- Model of `sscanf(buffer, "%d %f %f %f %f %f %d", &index, &rotational,
&vertical, &offset1, &offset2, &offset3, &enabled)` (rawdata.cc lines
112-114): returns the number of conversions performed before the first
failure together with the variable state — like the C original,
conversions made before the failure point are assigned. -/
def sscanf7 (s : List Char) (v : ScanVars) : Nat × ScanVars :=
  match scanInt s with
  | none => (0, v)
  | some (a1, s) =>
    let v := { v with index := a1 }
    match scanFloat s with
    | none => (1, v)
    | some (a2, s) =>
      let v := { v with rotational := a2 }
      match scanFloat s with
      | none => (2, v)
      | some (a3, s) =>
        let v := { v with vertical := a3 }
        match scanFloat s with
        | none => (3, v)
        | some (a4, s) =>
          let v := { v with offset1 := a4 }
          match scanFloat s with
          | none => (4, v)
          | some (a5, s) =>
            let v := { v with offset2 := a5 }
            match scanFloat s with
            | none => (5, v)
            | some (a6, s) =>
              let v := { v with offset3 := a6 }
              match scanInt s with
              | none => (6, v)
              | some (a7, _) => (7, { v with enabled := a7 })

/-- Model of `sscanf(buffer, "%d %f %f %f %f %f %f %f %d", &index, &rotational,
&vertical, &offset1, &offset2, &offset3, &vertCorr, &horzCorr, &enabled)`
(rawdata.cc lines 115-117). -/
def sscanf9 (s : List Char) (v : ScanVars) : Nat × ScanVars :=
  match scanInt s with
  | none => (0, v)
  | some (a1, s) =>
    let v := { v with index := a1 }
    match scanFloat s with
    | none => (1, v)
    | some (a2, s) =>
      let v := { v with rotational := a2 }
      match scanFloat s with
      | none => (2, v)
      | some (a3, s) =>
        let v := { v with vertical := a3 }
        match scanFloat s with
        | none => (3, v)
        | some (a4, s) =>
          let v := { v with offset1 := a4 }
          match scanFloat s with
          | none => (4, v)
          | some (a5, s) =>
            let v := { v with offset2 := a5 }
            match scanFloat s with
            | none => (5, v)
            | some (a6, s) =>
              let v := { v with offset3 := a6 }
              match scanFloat s with
              | none => (6, v)
              | some (a7, s) =>
                let v := { v with vertCorr := a7 }
                match scanFloat s with
                | none => (7, v)
                | some (a8, s) =>
                  let v := { v with horzCorr := a8 }
                  match scanInt s with
                  | none => (8, v)
                  | some (a9, _) => (9, { v with enabled := a9 })

/-- The record stored by the write block (rawdata.cc lines 129-136):
`rotational` and `vertical` converted from degrees to radians, the other
fields verbatim. -/
noncomputable def storedCorrection (v : ScanVars) : correction_angles :=
  { rotational := from_degrees (v.rotational : ℝ)
    vertical := from_degrees (v.vertical : ℝ)
    offset1 := v.offset1, offset2 := v.offset2, offset3 := v.offset3
    horzCorr := v.horzCorr, vertCorr := v.vertCorr, enabled := v.enabled }

/-- The state threaded through the line loop of `RawData::setup`: both
calibration banks and the parse variables. -/
structure LoaderState where
  lower : Int → correction_angles
  upper : Int → correction_angles
  vars : ScanVars

/-- The store step (rawdata.cc lines 119-136): route to the lower bank at
`index` when `index < 32`, else to the upper bank at `index - 32`.  The
banks being unchecked total maps, an out-of-range index writes out of
bounds exactly like the C arrays would. -/
noncomputable def applyStore (st : LoaderState) : LoaderState :=
  let c := storedCorrection st.vars
  if st.vars.index < 32 then
    { st with lower := fun q => if q = st.vars.index then c else st.lower q }
  else
    { st with upper := fun q => if q = st.vars.index - 32 then c else st.upper q }

/-- One iteration of the `getline` loop of `RawData::setup` (rawdata.cc
lines 104-152): skip `#` comments and the literal `upper` / `lower`
markers, try the 7-field `sscanf`, on its failure the 9-field one, store
on a full match and silently skip the line otherwise.  The parse
variables persist in every case. -/
noncomputable def processLine (line : List Char) (st : LoaderState) : LoaderState :=
  if line.head? = some '#' then st
  else if line = "upper".toList then st
  else if line = "lower".toList then st
  else
    let p7 := sscanf7 line st.vars
    if p7.1 = 7 then applyStore { st with vars := p7.2 }
    else
      let p9 := sscanf9 line p7.2
      if p9.1 = 9 then applyStore { st with vars := p9.2 }
      else { st with vars := p9.2 }

/-- The `while (config.getline(buffer, 256))` loop (rawdata.cc lines
103-152): `istream::getline` with a 256-byte buffer fails — and the loop
exits — at the first line of 255 or more characters, leaving that line
and every following line unprocessed. -/
noncomputable def processAll : List (List Char) → LoaderState → LoaderState
  | [], st => st
  | l :: ls, st =>
      if l.length < 255 then processAll ls (processLine l st) else st

/-- The decode-relevant state of a `RawData` object: the two calibration
banks and the initialization flag. -/
structure RawDataState where
  lower : Int → correction_angles
  upper : Int → correction_angles
  uninitialized : Bool

/-- A freshly constructed `RawData` (rawdata.cc lines 44-48): both banks
zeroed by `memset`.  Modelled from the spec: the header (not in `src/`)
starts the object uninitialized. -/
noncomputable def initialState : RawDataState :=
  { lower := zeroTable, upper := zeroTable, uninitialized := true }

/-- Model of `RawData::setup` (rawdata.cc lines 68-157) with file access
abstracted: `none` models an unopenable calibration file (return `-1`,
state untouched, rawdata.cc lines 83-89); `some lines` models a readable
file as its list of lines.  For any readable file the line loop runs,
then `uninitialized_` is cleared and `0` returned (lines 154-156) — even
when the loop stopped early or matched nothing. -/
noncomputable def RawData.setup (file : Option (List (List Char)))
    (s : RawDataState) : RawDataState × Int :=
  match file with
  | none => (s, -1)
  | some lines =>
      let l := processAll lines
        { lower := s.lower, upper := s.upper, vars := zeroVars }
      ({ lower := l.lower, upper := l.upper, uninitialized := false }, 0)

/-- One byte of a packet buffer.  The C code overlays `raw_packet_t` on
`&pkt->data[0]` with no bounds check; a read beyond the buffer is
undefined behaviour in C and is modelled as 0 here — the point being that
no check exists, not what the garbage value is. -/
def byteAt (bytes : List Nat) (n : Nat) : Nat := bytes.getD n 0

/-- The `(raw_packet_t *) &pkt->data[0]` overlay (rawdata.cc line 230):
twelve 100-byte blocks (2-byte header, 2-byte rotation, 96 data bytes),
16-bit fields little-endian, the revolution counter at offset 1200.
Offsets modelled from the spec (the header defining `raw_packet_t` is not
in `src/`). -/
def parseRawPacket (bytes : List Nat) : raw_packet_t :=
  { blocks := fun i =>
      { header := byteAt bytes (100 * i) + 256 * byteAt bytes (100 * i + 1)
        rotation := byteAt bytes (100 * i + 2) + 256 * byteAt bytes (100 * i + 3)
        data := fun k => byteAt bytes (100 * i + 4 + k) }
    revolution := byteAt bytes 1200 + 256 * byteAt bytes 1201 }

/-- Model of `RawDataScans::processPacket` (rawdata.cc lines 225-238): resize the
scan buffer to `SCANS_PER_PACKET` and decode — unconditionally.  The
buffer length is never examined and no error path exists. -/
noncomputable def RawDataScans.processPacket (s : RawDataState)
    (bytes : List Nat) : List laserscan_t :=
  packet2scans (parseRawPacket bytes) s.lower s.upper

/-- Model of `RawData::processScan` (rawdata.cc lines 51-65): when
`uninitialized_` is set, return before decoding anything; otherwise
decode every packet of the message in order.  (The `ros::ok()` shutdown
poll is modelled as always true.) -/
noncomputable def RawData.processScan (s : RawDataState)
    (packets : List (List Nat)) : List (List laserscan_t) :=
  if s.uninitialized then [] else packets.map (RawDataScans.processPacket s)

/-- The operations a host can invoke on a `RawData` object. -/
inductive Op where
  | setup (file : Option (List (List Char)))
  | scan (packets : List (List Nat))

/-- State transition of one operation: `processScan` never writes the
calibration state; `setup` transforms it as defined above. -/
noncomputable def stepOp (s : RawDataState) : Op → RawDataState
  | Op.setup f => (RawData.setup f s).1
  | Op.scan _ => s

/-- Run a sequence of operations. -/
noncomputable def runOps : RawDataState → List Op → RawDataState
  | s, [] => s
  | s, o :: os => runOps (stepOp s o) os

theorem sscanf7_hash (cs : List Char) (v : ScanVars) :
    sscanf7 ('#' :: cs) v = (0, v) := rfl

theorem sscanf9_hash (cs : List Char) (v : ScanVars) :
    sscanf9 ('#' :: cs) v = (0, v) := rfl

theorem sscanf7_upperTok (v : ScanVars) :
    sscanf7 "upper".toList v = (0, v) := rfl

theorem sscanf9_upperTok (v : ScanVars) :
    sscanf9 "upper".toList v = (0, v) := rfl

theorem sscanf7_lowerTok (v : ScanVars) :
    sscanf7 "lower".toList v = (0, v) := rfl

theorem sscanf9_lowerTok (v : ScanVars) :
    sscanf9 "lower".toList v = (0, v) := rfl

theorem processLine_store_of_match7 (st : LoaderState) (line : List Char)
    (h : (sscanf7 line st.vars).1 = 7) :
    processLine line st = applyStore { st with vars := (sscanf7 line st.vars).2 } := by
  have hh : ¬ line.head? = some '#' := by
    intro hc
    cases line with
    | nil => simp at hc
    | cons a tl =>
        simp at hc
        subst hc
        rw [sscanf7_hash] at h
        simp at h
  have hu : ¬ line = "upper".toList := by
    intro hc; rw [hc, sscanf7_upperTok] at h; simp at h
  have hl : ¬ line = "lower".toList := by
    intro hc; rw [hc, sscanf7_lowerTok] at h; simp at h
  simp only [processLine, if_neg hh, if_neg hu, if_neg hl, h, if_pos]

theorem processLine_store_of_match9 (st : LoaderState) (line : List Char)
    (h7 : (sscanf7 line st.vars).1 ≠ 7)
    (h9 : (sscanf9 line (sscanf7 line st.vars).2).1 = 9) :
    processLine line st
      = applyStore { st with vars := (sscanf9 line (sscanf7 line st.vars).2).2 } := by
  have hh : ¬ line.head? = some '#' := by
    intro hc
    cases line with
    | nil => simp at hc
    | cons a tl =>
        simp at hc
        subst hc
        rw [sscanf7_hash] at h9
        rw [sscanf9_hash] at h9
        simp at h9
  have hu : ¬ line = "upper".toList := by
    intro hc
    rw [hc, sscanf7_upperTok] at h9
    rw [sscanf9_upperTok] at h9
    simp at h9
  have hl : ¬ line = "lower".toList := by
    intro hc
    rw [hc, sscanf7_lowerTok] at h9
    rw [sscanf9_lowerTok] at h9
    simp at h9
  simp only [processLine, if_neg hh, if_neg hu, if_neg hl, if_neg h7, h9, if_pos]

theorem processLine_skip (st : LoaderState) (line : List Char)
    (h7 : (sscanf7 line st.vars).1 ≠ 7)
    (h9 : (sscanf9 line (sscanf7 line st.vars).2).1 ≠ 9) :
    (processLine line st).lower = st.lower
    ∧ (processLine line st).upper = st.upper := by
  unfold processLine
  by_cases hh : line.head? = some '#'
  · rw [if_pos hh]; exact ⟨rfl, rfl⟩
  · rw [if_neg hh]
    by_cases hu : line = "upper".toList
    · rw [if_pos hu]; exact ⟨rfl, rfl⟩
    · rw [if_neg hu]
      by_cases hl : line = "lower".toList
      · rw [if_pos hl]; exact ⟨rfl, rfl⟩
      · rw [if_neg hl]
        simp [if_neg h7, if_neg h9]

theorem applyStore_lower (st : LoaderState) (h : st.vars.index < 32) :
    (applyStore st).lower st.vars.index = storedCorrection st.vars
    ∧ (applyStore st).upper = st.upper := by
  unfold applyStore
  rw [if_pos h]
  exact ⟨by simp, rfl⟩

theorem applyStore_upper (st : LoaderState) (h : ¬ st.vars.index < 32) :
    (applyStore st).upper (st.vars.index - 32) = storedCorrection st.vars
    ∧ (applyStore st).lower = st.lower := by
  unfold applyStore
  rw [if_neg h]
  exact ⟨by simp, rfl⟩

/-- C4: a recognized data line (either `sscanf` layout matching) stores a
record whose `rotational` and `vertical` are the parsed degree values
converted to radians, routed by index threshold: `index < 32` writes the
lower bank at local index `index` (upper bank untouched), otherwise the
upper bank at local index `index - 32` (lower bank untouched).  The
witness instantiates the line `"40 1 2 3 4 5 1"`, landing in the upper
bank at local index 8. -/
theorem setup_routing_conversion (st : LoaderState) (line : List Char)
    (w : ScanVars)
    (h : ((sscanf7 line st.vars).1 = 7 ∧ w = (sscanf7 line st.vars).2)
       ∨ ((sscanf7 line st.vars).1 ≠ 7
           ∧ (sscanf9 line (sscanf7 line st.vars).2).1 = 9
           ∧ w = (sscanf9 line (sscanf7 line st.vars).2).2)) :
    processLine line st = applyStore { st with vars := w }
    ∧ (storedCorrection w).rotational = from_degrees (w.rotational : ℝ)
    ∧ (storedCorrection w).vertical = from_degrees (w.vertical : ℝ)
    ∧ (w.index < 32 →
        (processLine line st).lower w.index = storedCorrection w
        ∧ (processLine line st).upper = st.upper)
    ∧ (¬ w.index < 32 →
        (processLine line st).upper (w.index - 32) = storedCorrection w
        ∧ (processLine line st).lower = st.lower) := by
  have hp : processLine line st = applyStore { st with vars := w } := by
    rcases h with ⟨h7, hw⟩ | ⟨h7, h9, hw⟩
    · rw [hw]; exact processLine_store_of_match7 st line h7
    · rw [hw]; exact processLine_store_of_match9 st line h7 h9
  refine ⟨hp, rfl, rfl, ?_, ?_⟩
  · intro hidx
    rw [hp]
    exact applyStore_lower { st with vars := w } hidx
  · intro hidx
    rw [hp]
    exact applyStore_upper { st with vars := w } hidx

/-- The all-zero loader state at entry of the line loop. -/
noncomputable def initLoader : LoaderState :=
  { lower := zeroTable, upper := zeroTable, vars := zeroVars }

/-- The 7-field example line of the spec, with index 40. -/
def fortyLine : List Char := "40 1 2 3 4 5 1".toList

theorem setup_routing_conversion_w :
    (sscanf7 fortyLine zeroVars).1 = 7
    ∧ ¬ (sscanf7 fortyLine zeroVars).2.index < 32
    ∧ (sscanf7 fortyLine zeroVars).2.index - 32 = 8
    ∧ ((processLine fortyLine initLoader).upper
          ((sscanf7 fortyLine zeroVars).2.index - 32)
        = storedCorrection (sscanf7 fortyLine zeroVars).2
      ∧ (processLine fortyLine initLoader).lower = initLoader.lower) :=
  ⟨by decide, by decide, by decide,
    (setup_routing_conversion initLoader fortyLine
        (sscanf7 fortyLine zeroVars).2 (Or.inl ⟨by decide, rfl⟩)).2.2.2.2
      (by decide)⟩

/-- C6 (amended): the loader tries the 7-field layout first and the
9-field layout only on its failure, and a line matching neither leaves
both calibration banks untouched without aborting the load.  However,
because the 7-field format's final `%d` accepts the integer prefix of an
ordinary decimal, a well-formed 9-field line whose 7th field starts with
an optionally signed digit (e.g. `0.4`) is matched by the 7-field layout
— `enabled` receives that integer prefix and `vertCorr` / `horzCorr` are
not read from the line; only a 9-field line whose 7th field has no
integer prefix (e.g. starting with `.`) reaches the 9-field layout. -/
theorem parse_attempt_order (st : LoaderState) (line : List Char) :
    ((sscanf7 line st.vars).1 = 7 →
        processLine line st
          = applyStore { st with vars := (sscanf7 line st.vars).2 })
    ∧ ((sscanf7 line st.vars).1 ≠ 7 →
       (sscanf9 line (sscanf7 line st.vars).2).1 = 9 →
        processLine line st
          = applyStore { st with vars := (sscanf9 line (sscanf7 line st.vars).2).2 })
    ∧ ((sscanf7 line st.vars).1 ≠ 7 →
       (sscanf9 line (sscanf7 line st.vars).2).1 ≠ 9 →
        (processLine line st).lower = st.lower
        ∧ (processLine line st).upper = st.upper) :=
  ⟨processLine_store_of_match7 st line,
   processLine_store_of_match9 st line,
   processLine_skip st line⟩

/-- A 9-field line whose 7th field has no integer prefix, so the 7-field
`sscanf` fails at its final `%d` and the 9-field layout is used. -/
def dotNineLine : List Char := "0 1 2 3 4 5 .4 .8 9".toList

theorem parse_attempt_order_w :
    (sscanf7 dotNineLine zeroVars).1 ≠ 7
    ∧ (sscanf9 dotNineLine (sscanf7 dotNineLine zeroVars).2).1 = 9
    ∧ processLine dotNineLine initLoader
        = applyStore { initLoader with
            vars := (sscanf9 dotNineLine (sscanf7 dotNineLine zeroVars).2).2 } :=
  ⟨by decide, by decide,
    (parse_attempt_order initLoader dotNineLine).2.1 (by decide) (by decide)⟩

/-- A well-formed 9-field data line whose 7th field is the ordinary
decimal `0.4`. -/
def nineFieldLine : List Char := "0 1 2 3 4 5 0.4 0.8 9".toList

/-- C6 counterexample: the well-formed 9-field line
`"0 1 2 3 4 5 0.4 0.8 9"` is NOT parsed under the 9-field layout.  The
7-field `sscanf` already reports a full match (its final `%d` accepts the
integer prefix `0` of `0.4`), so the stored record carries
`enabled = 0` — not the line's 9th field `9` — and `vertCorr = 0` (the
stale variable value) — not the line's 7th field `0.4 = 2/5`. -/
theorem nine_field_line_misparsed :
    (sscanf7 nineFieldLine zeroVars).1 = 7
    ∧ ((processLine nineFieldLine initLoader).lower 0).enabled = 0
    ∧ ((processLine nineFieldLine initLoader).lower 0).vertCorr = 0
    ∧ ¬ ((processLine nineFieldLine initLoader).lower 0).enabled = 9
    ∧ ¬ ((processLine nineFieldLine initLoader).lower 0).vertCorr = 2 / 5 := by
  have h2 : ((processLine nineFieldLine initLoader).lower 0).enabled = 0 := by
    decide
  have h3 : ((processLine nineFieldLine initLoader).lower 0).vertCorr = 0 := by
    decide
  refine ⟨by decide, h2, h3, ?_, ?_⟩
  · rw [h2]; norm_num
  · rw [h3]; norm_num

theorem runOps_preserves_initialized (s : RawDataState) (ops : List Op)
    (h : s.uninitialized = false) :
    (runOps s ops).uninitialized = false := by
  induction ops generalizing s with
  | nil => exact h
  | cons o os ih =>
      cases o with
      | setup f =>
          cases f with
          | none => exact ih s h
          | some lines => exact ih _ rfl
      | scan p => exact ih s h

/-- C7: while `uninitialized_` is set, `processScan` decodes nothing (and
does not fail); any successful `setup` — the only success path, which
runs on every readable file — returns 0 and clears the flag, and no
subsequent sequence of operations ever sets it again. -/
theorem uninitialized_gate (s : RawDataState) (packets : List (List Nat))
    (lines : List (List Char)) (ops : List Op)
    (h : s.uninitialized = true) :
    RawData.processScan s packets = []
    ∧ (RawData.setup (some lines) s).2 = 0
    ∧ (RawData.setup (some lines) s).1.uninitialized = false
    ∧ (runOps (RawData.setup (some lines) s).1 ops).uninitialized = false := by
  refine ⟨?_, rfl, rfl, ?_⟩
  · unfold RawData.processScan
    rw [h]
    simp
  · exact runOps_preserves_initialized _ ops rfl

theorem uninitialized_gate_w :
    initialState.uninitialized = true
    ∧ RawData.processScan initialState [[]] = []
    ∧ (RawData.setup (some []) initialState).2 = 0
    ∧ (RawData.setup (some []) initialState).1.uninitialized = false
    ∧ (runOps (RawData.setup (some []) initialState).1
        [Op.scan [[]], Op.setup none]).uninitialized = false :=
  ⟨rfl,
    (uninitialized_gate initialState [[]] [] [Op.scan [[]], Op.setup none] rfl).1,
    (uninitialized_gate initialState [[]] [] [Op.scan [[]], Op.setup none] rfl).2.1,
    (uninitialized_gate initialState [[]] [] [Op.scan [[]], Op.setup none] rfl).2.2.1,
    (uninitialized_gate initialState [[]] [] [Op.scan [[]], Op.setup none] rfl).2.2.2⟩

/-- C8 counterexample: the empty buffer — far shorter than `PACKET_SIZE`
— is not rejected by the per-packet path: `processPacket` decodes it into
the full complement of `SCANS_PER_PACKET` samples and reports no error. -/
theorem short_buffer_decoded :
    ([] : List Nat).length < PACKET_SIZE
    ∧ (RawDataScans.processPacket initialState []).length = SCANS_PER_PACKET
    ∧ RawDataScans.processPacket initialState [] ≠ [] := by
  refine ⟨by decide, packet2scans_length _ _ _, ?_⟩
  intro hc
  have hl := packet2scans_length (parseRawPacket [])
    initialState.lower initialState.upper
  rw [show packet2scans (parseRawPacket []) initialState.lower initialState.upper
      = RawDataScans.processPacket initialState [] from rfl, hc] at hl
  simp [SCANS_PER_PACKET, SCANS_PER_BLOCK, BLOCKS_PER_PACKET] at hl

/-- C8 (amended): the per-packet processing path performs no buffer-length
validation at all — every buffer, in particular any buffer shorter than
`PACKET_SIZE`, is decoded unconditionally through the fixed-layout
overlay into exactly `SCANS_PER_PACKET` samples, and no format error is
reported (the function has no error result). -/
theorem processPacket_no_length_check (s : RawDataState) (bytes : List Nat) :
    RawDataScans.processPacket s bytes
      = packet2scans (parseRawPacket bytes) s.lower s.upper
    ∧ (RawDataScans.processPacket s bytes).length = SCANS_PER_PACKET :=
  ⟨rfl, packet2scans_length _ _ _⟩

theorem processAll_stops_at_overlong (ls : List (List Char)) :
    ∀ st : LoaderState,
      processAll ls st
        = processAll (ls.takeWhile (fun l => decide (l.length < 255))) st := by
  induction ls with
  | nil => intro st; rfl
  | cons l ls ih =>
      intro st
      by_cases h : l.length < 255
      · have ht : (l :: ls).takeWhile (fun l => decide (l.length < 255))
            = l :: ls.takeWhile (fun l => decide (l.length < 255)) := by
          simp [List.takeWhile_cons, h]
        rw [ht]
        simp only [processAll, if_pos h]
        exact ih (processLine l st)
      · have ht : (l :: ls).takeWhile (fun l => decide (l.length < 255)) = [] := by
          simp [List.takeWhile_cons, h]
        rw [ht]
        simp only [processAll, if_neg h]

/-- C10: when the calibration file contains a line of 256 or more
characters, the `getline` loop stops at the first overlong line (255 or
more characters, the point where `getline` with a 256-byte buffer sets
failbit): loading the file is identical to loading only the prefix of
lines below that limit, so the 256-character line and every line after it
are ignored and their records keep their prior (default zero) values —
yet `setup` still clears `uninitialized_` and returns 0 (success). -/
theorem overlong_line_truncates_load (s : RawDataState)
    (lines : List (List Char)) (h : ∃ l ∈ lines, 256 ≤ l.length) :
    (RawData.setup (some lines) s).2 = 0
    ∧ (RawData.setup (some lines) s).1.uninitialized = false
    ∧ RawData.setup (some lines) s
        = RawData.setup
            (some (lines.takeWhile (fun l => decide (l.length < 255)))) s
    ∧ ∀ l ∈ lines, 256 ≤ l.length →
        l ∉ lines.takeWhile (fun l => decide (l.length < 255)) := by
  refine ⟨rfl, rfl, ?_, ?_⟩
  · simp only [RawData.setup]
    rw [processAll_stops_at_overlong lines]
  · intro l _ hlen hin
    have hp := List.mem_takeWhile_imp hin
    simp only [decide_eq_true_eq] at hp
    omega

/-- A 256-character line, overflowing the 256-byte `getline` buffer. -/
def longLine : List Char := List.replicate 256 'a'

theorem longLine_length : longLine.length = 256 := by
  rw [longLine, List.length_replicate]

theorem overlong_line_truncates_load_w :
    longLine ∈ [longLine, fortyLine]
    ∧ 256 ≤ longLine.length
    ∧ (RawData.setup (some [longLine, fortyLine]) initialState).2 = 0
    ∧ (RawData.setup (some [longLine, fortyLine]) initialState).1.uninitialized
        = false
    ∧ RawData.setup (some [longLine, fortyLine]) initialState
        = RawData.setup
            (some ([longLine, fortyLine].takeWhile
              (fun l => decide (l.length < 255)))) initialState
    ∧ longLine ∉ [longLine, fortyLine].takeWhile
        (fun l => decide (l.length < 255)) :=
  ⟨List.mem_cons_self longLine [fortyLine], by rw [longLine_length],
    (overlong_line_truncates_load initialState [longLine, fortyLine]
      ⟨longLine, List.mem_cons_self longLine [fortyLine], by rw [longLine_length]⟩).1,
    (overlong_line_truncates_load initialState [longLine, fortyLine]
      ⟨longLine, List.mem_cons_self longLine [fortyLine], by rw [longLine_length]⟩).2.1,
    (overlong_line_truncates_load initialState [longLine, fortyLine]
      ⟨longLine, List.mem_cons_self longLine [fortyLine], by rw [longLine_length]⟩).2.2.1,
    (overlong_line_truncates_load initialState [longLine, fortyLine]
      ⟨longLine, List.mem_cons_self longLine [fortyLine], by rw [longLine_length]⟩).2.2.2
      longLine (List.mem_cons_self longLine [fortyLine]) (by rw [longLine_length])⟩
